import Mathlib

/-!
Verification development for the `openai-structured-client` repository
(`src/openai.rs`, `src/main.rs`).

The development shallowly embeds the two core components of the client:

* the schema compiler (`generate_schema_with_no_additional` /
  `set_no_additional_properties`), modelled over the `schemars` schema tree
  restricted to the fields the code reads or writes;
* the response decoder (`call_schema`'s post-HTTP logic, the serde-untagged
  envelope types `OpenAIResponse`, `Message`, and the custom payload
  deserializer `deserialize_content`), modelled over a JSON value type.

Modelling conventions:

* JSON numbers are modelled as integers (`Int`); floating-point values are
  outside the scope of every claim treated here.
* `serde_json` text parsing is modelled by a recursive-descent parser over
  `List Char`.  The model accepts exactly the escape sequences `serde_json`
  accepts and produces; insignificant whitespace, the 128-level recursion
  limit, leading-zero rejection, duplicate-key rejection and fraction /
  exponent number forms are not modelled, since no claim depends on them.
* serde-derived struct deserialization is modelled as key lookup in a JSON
  object that ignores unknown keys (the derives in the source do not use
  `deny_unknown_fields`); serde untagged enums are modelled as ordered
  alternatives, first declared variant tried first.
* the generic target shape `T` is modelled by an arbitrary decoding function
  `Json → Option T` standing for `T`'s `Deserialize` implementation.
-/

namespace OAI

/-- JSON values, the model of `serde_json::Value`.  Objects keep their entries
as an association list in source order (matching serde's buffered `Content`
during untagged deserialization); numbers are modelled as integers. -/
inductive Json where
  | null : Json
  | bool (b : Bool) : Json
  | num (i : Int) : Json
  | str (s : String) : Json
  | arr (elems : List Json) : Json
  | obj (members : List (String × Json)) : Json

/-- First-match key lookup in a JSON object's member list, the model of
serde's field lookup for derived struct deserialization. -/
def lookupKey (k : String) : List (String × Json) → Option Json
  | [] => none
  | (k', v) :: rest => if k' = k then some v else lookupKey k rest

/-! ### Printing JSON text (model of `serde_json::to_string`) -/

/-- Little-endian base-10 digits, fuelled so that the definition is
structurally recursive (`natDigitsRev n` uses fuel `n`). -/
def natDigitsRevAux : Nat → Nat → List Nat
  | 0, _ => []
  | _ + 1, 0 => []
  | f + 1, n + 1 => ((n + 1) % 10) :: natDigitsRevAux f ((n + 1) / 10)

/-- Little-endian base-10 digits of `n` (empty for `0`). -/
def natDigitsRev (n : Nat) : List Nat := natDigitsRevAux n n

/-- Decimal digit characters of `n`, most significant first. -/
def natChars (n : Nat) : List Char :=
  if n = 0 then ['0'] else (natDigitsRev n).reverse.map Nat.digitChar

/-- Decimal representation of an integer, as `serde_json` prints it. -/
def intChars (i : Int) : List Char :=
  if i < 0 then '-' :: natChars i.natAbs else natChars i.natAbs

/-- JSON string escaping of one character, as `serde_json` emits it:
`"` and `\` are escaped, control characters use the short escapes
`\b \t \n \f \r` or the `\u00XX` form, everything else is emitted raw. -/
def escapeChar (c : Char) : List Char :=
  if c = '"' then ['\\', '"']
  else if c = '\\' then ['\\', '\\']
  else if c = Char.ofNat 8 then ['\\', 'b']
  else if c = Char.ofNat 9 then ['\\', 't']
  else if c = Char.ofNat 10 then ['\\', 'n']
  else if c = Char.ofNat 12 then ['\\', 'f']
  else if c = Char.ofNat 13 then ['\\', 'r']
  else if c.toNat < 32 then
    ['\\', 'u', '0', '0', Nat.digitChar (c.toNat / 16), Nat.digitChar (c.toNat % 16)]
  else [c]

/-- JSON string escaping of a character sequence. -/
def escapeStr : List Char → List Char
  | [] => []
  | c :: rest => escapeChar c ++ escapeStr rest

mutual

/-- Compact JSON text of a value, the model of `serde_json::to_string`. -/
def printJson : Json → List Char
  | .null => ("null" : String).data
  | .bool true => ("true" : String).data
  | .bool false => ("false" : String).data
  | .num i => intChars i
  | .str s => '"' :: (escapeStr s.data ++ ['"'])
  | .arr js => '[' :: printElems js
  | .obj kvs => '{' :: printMembers kvs

/-- Array elements followed by the closing bracket. -/
def printElems : List Json → List Char
  | [] => [']']
  | [j] => printJson j ++ [']']
  | j :: js => printJson j ++ ',' :: printElems js

/-- Object members followed by the closing brace. -/
def printMembers : List (String × Json) → List Char
  | [] => ['}']
  | [(k, v)] => '"' :: (escapeStr k.data ++ '"' :: ':' :: (printJson v ++ ['}']))
  | (k, v) :: kvs => '"' :: (escapeStr k.data ++ '"' :: ':' :: (printJson v ++ ',' :: printMembers kvs))

end

/-- JSON text of a value as a `String`. -/
def jsonToString (j : Json) : String := ⟨printJson j⟩

/-! ### Parsing JSON text (model of `serde_json::from_str`) -/

/-- Hexadecimal digit value of a character. -/
def hexVal (c : Char) : Option Nat :=
  if 48 ≤ c.toNat ∧ c.toNat ≤ 57 then some (c.toNat - 48)
  else if 97 ≤ c.toNat ∧ c.toNat ≤ 102 then some (c.toNat - 87)
  else if 65 ≤ c.toNat ∧ c.toNat ≤ 70 then some (c.toNat - 55)
  else none

/-- Decimal digit test. -/
def isDigitC (c : Char) : Bool := 48 ≤ c.toNat && c.toNat ≤ 57

/-- Value of a short escape character after a backslash. -/
def unescapeChar : Char → Option Char
  | '"' => some '"'
  | '\\' => some '\\'
  | '/' => some '/'
  | 'b' => some (Char.ofNat 8)
  | 'f' => some (Char.ofNat 12)
  | 'n' => some (Char.ofNat 10)
  | 'r' => some (Char.ofNat 13)
  | 't' => some (Char.ofNat 9)
  | _ => none

/-- Parse the body of a JSON string up to and including the closing quote,
returning the decoded characters and the remaining input. -/
def parseStringBody : List Char → Option (List Char × List Char)
  | [] => none
  | c :: rest =>
    if c = '"' then some ([], rest)
    else if c = '\\' then
      match rest with
      | [] => none
      | e :: rest2 =>
        if e = 'u' then
          match rest2 with
          | a :: b :: c3 :: d :: rest3 =>
            match hexVal a, hexVal b, hexVal c3, hexVal d with
            | some va, some vb, some vc, some vd =>
              (parseStringBody rest3).map
                (fun p => (Char.ofNat (4096 * va + 256 * vb + 16 * vc + vd) :: p.1, p.2))
            | _, _, _, _ => none
          | _ => none
        else
          match unescapeChar e with
          | some u => (parseStringBody rest2).map (fun p => (u :: p.1, p.2))
          | none => none
    else (parseStringBody rest).map (fun p => (c :: p.1, p.2))

/-- Numeric value of a big-endian list of decimal digit characters. -/
def natFromDigits (l : List Char) : Nat :=
  l.foldl (fun a c => 10 * a + (c.toNat - 48)) 0

/-- Parse an integer JSON number (optional minus sign, then digits). -/
def parseNumber : List Char → Option (Int × List Char)
  | [] => none
  | c :: rest =>
    if c = '-' then
      let ds := rest.takeWhile isDigitC
      if ds.isEmpty then none
      else some (-(natFromDigits ds : Int), rest.dropWhile isDigitC)
    else
      let ds := (c :: rest).takeWhile isDigitC
      if ds.isEmpty then none
      else some ((natFromDigits ds : Int), (c :: rest).dropWhile isDigitC)

mutual

/-- Fuelled recursive-descent parser for one JSON value, returning the value
and the remaining input. -/
def parseVal : Nat → List Char → Option (Json × List Char)
  | 0, _ => none
  | _ + 1, [] => none
  | f + 1, c :: l =>
    if c = 'n' then
      match l with
      | 'u' :: 'l' :: 'l' :: rest => some (.null, rest)
      | _ => none
    else if c = 't' then
      match l with
      | 'r' :: 'u' :: 'e' :: rest => some (.bool true, rest)
      | _ => none
    else if c = 'f' then
      match l with
      | 'a' :: 'l' :: 's' :: 'e' :: rest => some (.bool false, rest)
      | _ => none
    else if c = '"' then
      (parseStringBody l).map (fun p => (.str ⟨p.1⟩, p.2))
    else if c = '[' then
      (parseElems f l).map (fun p => (.arr p.1, p.2))
    else if c = '{' then
      (parseMembers f l).map (fun p => (.obj p.1, p.2))
    else
      (parseNumber (c :: l)).map (fun p => (.num p.1, p.2))

/-- Parse array elements up to and including the closing bracket. -/
def parseElems : Nat → List Char → Option (List Json × List Char)
  | 0, _ => none
  | _ + 1, [] => none
  | f + 1, c :: l =>
    if c = ']' then some ([], l)
    else
      match parseVal f (c :: l) with
      | none => none
      | some (j, r) =>
        match r with
        | [] => none
        | c2 :: r2 =>
          if c2 = ',' then (parseElems f r2).map (fun p => (j :: p.1, p.2))
          else if c2 = ']' then some ([j], r2)
          else none

/-- Parse object members up to and including the closing brace. -/
def parseMembers : Nat → List Char → Option (List (String × Json) × List Char)
  | 0, _ => none
  | _ + 1, [] => none
  | f + 1, c :: l =>
    if c = '}' then some ([], l)
    else if c = '"' then
      match parseStringBody l with
      | none => none
      | some (k, r1) =>
        match r1 with
        | ':' :: r2 =>
          match parseVal f r2 with
          | none => none
          | some (v, r3) =>
            match r3 with
            | [] => none
            | c2 :: r4 =>
              if c2 = ',' then (parseMembers f r4).map (fun p => ((⟨k⟩, v) :: p.1, p.2))
              else if c2 = '}' then some ([(⟨k⟩, v)], r4)
              else none
        | _ => none
    else none

end

/-- Parse a complete JSON document, the model of
`serde_json::from_str::<Value>`: one value, with the whole input consumed. -/
def parseJsonText (s : String) : Option Json :=
  match parseVal (2 * s.data.length + 2) s.data with
  | some (j, []) => some j
  | _ => none

/-- The input does not continue with a decimal digit (used to delimit number
parsing). -/
def noDigitHead (l : List Char) : Prop :=
  ∀ c cs, l = c :: cs → isDigitC c = false

mutual

/-- Fuel sufficient for `parseVal` on the printed form of a value. -/
def fuelV : Json → Nat
  | .arr js => 1 + fuelE js
  | .obj ms => 1 + fuelM ms
  | _ => 1

/-- Fuel sufficient for `parseElems` on printed elements. -/
def fuelE : List Json → Nat
  | [] => 1
  | j :: js => 1 + max (fuelV j) (fuelE js)

/-- Fuel sufficient for `parseMembers` on printed members. -/
def fuelM : List (String × Json) → Nat
  | [] => 1
  | (_, v) :: ms => 1 + max (fuelV v) (fuelM ms)

end

/-- The two physical payload encodings that can carry a native (non-string)
serde encoding of a value: an object or an array. -/
def isObjOrArr : Json → Bool
  | .obj _ => true
  | .arr _ => true
  | _ => false

/-! ### The response envelope types (`src/openai.rs`, lines 224-293)

The type parameter `T` of the Rust source stays a type parameter here; its
`Deserialize` implementation is abstracted as a function `Json → Option T`.
-/

/-- `pub struct Refusal { refusal: String }`. -/
structure Refusal where
  refusal : String
deriving DecidableEq

/-- `pub struct OpenAIErrorDetails { pub message: String }` (the commented-out
fields of the source are omitted here as they are in the source). -/
structure OpenAIErrorDetails where
  message : String
deriving DecidableEq

/-- `pub struct OpenAIError { error: OpenAIErrorDetails }`. -/
structure OpenAIError where
  error : OpenAIErrorDetails
deriving DecidableEq

/-- `pub struct Content<T> { pub content: T }`. -/
structure Content (T : Type) where
  content : T

/-- `pub enum Message<T> { Ok(Content<T>), Err(Refusal) }`, serde-untagged. -/
inductive Message (T : Type) where
  | ok (c : Content T) : Message T
  | err (r : Refusal) : Message T

/-- `pub struct Choice<T> { pub message: Message<T> }`. -/
structure Choice (T : Type) where
  message : Message T

/-- `pub struct ChatGPTResponse<T> { pub choices: Vec<Choice<T>> }`. -/
structure ChatGPTResponse (T : Type) where
  choices : List (Choice T)

/-- `pub enum OpenAIResponse<T> { Ok(ChatGPTResponse<T>), Err(OpenAIError) }`,
serde-untagged. -/
inductive OpenAIResponse (T : Type) where
  | ok (r : ChatGPTResponse T) : OpenAIResponse T
  | err (e : OpenAIError) : OpenAIResponse T

/-! ### The response decoder -/

/-- The custom payload deserializer `deserialize_content`
(`src/openai.rs`, lines 295-346).  Its `ContentVisitor` accepts exactly three
physical encodings: a string (`visit_str` / `visit_string`: the string's
contents are parsed as JSON text and decoded into `T`), a map (`visit_map`:
decoded directly into `T`), and a sequence (`visit_seq`: decoded directly
into `T`).  All other `visit_*` methods are left at their serde defaults,
which produce an invalid-type error. -/
def deserialize_content (decodeT : Json → Option T) : Json → Option T
  | .str s => (parseJsonText s).bind decodeT
  | .obj kvs => decodeT (.obj kvs)
  | .arr xs => decodeT (.arr xs)
  | _ => none

/-- Decode a JSON string value (serde's `String` deserialization). -/
def decodeString : Json → Option String
  | .str s => some s
  | _ => none

/-- Derived deserialization of `Refusal`: an object with a string field
`refusal`; unknown fields are ignored. -/
def decodeRefusal : Json → Option Refusal
  | .obj kvs => ((lookupKey "refusal" kvs).bind decodeString).map Refusal.mk
  | _ => none

/-- Derived deserialization of `Content<T>`: an object whose field `content`
goes through `deserialize_content`; unknown fields are ignored. -/
def decodeContent (decodeT : Json → Option T) : Json → Option (Content T)
  | .obj kvs => ((lookupKey "content" kvs).bind (deserialize_content decodeT)).map Content.mk
  | _ => none

/-- Untagged deserialization of `Message<T>`: the `Ok(Content<T>)` variant is
declared first and therefore tried first; on its failure the `Err(Refusal)`
variant is tried. -/
def decodeMessage (decodeT : Json → Option T) (j : Json) : Option (Message T) :=
  match decodeContent decodeT j with
  | some c => some (.ok c)
  | none => (decodeRefusal j).map .err

/-- Derived deserialization of `Choice<T>`: an object with field `message`. -/
def decodeChoice (decodeT : Json → Option T) : Json → Option (Choice T)
  | .obj kvs => ((lookupKey "message" kvs).bind (decodeMessage decodeT)).map Choice.mk
  | _ => none

/-- Decode every element of a JSON array, failing if any element fails
(serde's `Vec` deserialization). -/
def decodeAll (dec : Json → Option α) : List Json → Option (List α)
  | [] => some []
  | x :: xs =>
    match dec x with
    | none => none
    | some a => (decodeAll dec xs).map (a :: ·)

/-- Derived deserialization of `ChatGPTResponse<T>`: an object with field
`choices` holding an array of choices. -/
def decodeChatGPTResponse (decodeT : Json → Option T) : Json → Option (ChatGPTResponse T)
  | .obj kvs =>
    match lookupKey "choices" kvs with
    | some (.arr xs) => (decodeAll (decodeChoice decodeT) xs).map ChatGPTResponse.mk
    | _ => none
  | _ => none

/-- Derived deserialization of `OpenAIErrorDetails`: an object with a string
field `message`. -/
def decodeOpenAIErrorDetails : Json → Option OpenAIErrorDetails
  | .obj kvs => ((lookupKey "message" kvs).bind decodeString).map OpenAIErrorDetails.mk
  | _ => none

/-- Derived deserialization of `OpenAIError`: an object with field `error`. -/
def decodeOpenAIError : Json → Option OpenAIError
  | .obj kvs => ((lookupKey "error" kvs).bind decodeOpenAIErrorDetails).map OpenAIError.mk
  | _ => none

/-- Untagged deserialization of `OpenAIResponse<T>`
(`src/openai.rs`, lines 224-230): the success envelope `Ok(ChatGPTResponse)`
is declared first and therefore tried first; only on its structural failure is
the error envelope `Err(OpenAIError)` tried. -/
def decodeOpenAIResponse (decodeT : Json → Option T) (j : Json) : Option (OpenAIResponse T) :=
  match decodeChatGPTResponse decodeT j with
  | some r => some (.ok r)
  | none => (decodeOpenAIError j).map .err

/-- Outcome of `call_schema` after the HTTP response body has been received,
as observed by the caller.  `malformedResponse` is the decode error propagated
by the `?` on `res.json().await?` when the body matches neither envelope
shape; `panicked` is a Rust panic (which aborts the call without returning an
error value). -/
inductive CallOutcome (T : Type) where
  | ok (t : T) : CallOutcome T
  | refusal (r : Refusal) : CallOutcome T
  | apiError (e : OpenAIError) : CallOutcome T
  | malformedResponse : CallOutcome T
  | panicked : CallOutcome T

/-- The decoding part of `call_schema` (`src/openai.rs`, lines 212-220):
`res.json::<OpenAIResponse<T>>()` followed by the `match`.  The source indexes
`res.choices[0]` without an emptiness check, which panics on an empty
vector — modelled by the `panicked` outcome. -/
def call_schema_decode (decodeT : Json → Option T) (body : Json) : CallOutcome T :=
  match decodeOpenAIResponse decodeT body with
  | none => .malformedResponse
  | some (.ok res) =>
    match res.choices with
    | [] => .panicked
    | c :: _ =>
      match c.message with
      | .ok content => .ok content.content
      | .err refusal => .refusal refusal
  | some (.err e) => .apiError e

/-! ### The schemars schema tree (restricted to the fields the code touches)

`set_no_additional_properties` reads and writes `instance_type`, the
`ObjectValidation` fields `additional_properties`, `properties`, `required`,
the `ArrayValidation` field `items`, and the `SubschemaValidation` fields
`all_of`, `any_of`, `one_of`, `not`.  All other `schemars` fields are never
inspected or modified by the source and are elided from the model.  `Box`
indirections are elided; `BTreeMap` / `BTreeSet` become association lists /
lists of keys. -/

/-- `schemars::schema::InstanceType`. -/
inductive InstanceType where
  | null | boolean | object | array | number | string | integer
deriving DecidableEq

/-- `schemars::schema::SingleOrVec<T>`. -/
inductive SingleOrVec (α : Type) where
  | single (a : α) : SingleOrVec α
  | vec (l : List α) : SingleOrVec α
deriving DecidableEq

mutual

/-- `schemars::schema::Schema`: a boolean schema or a schema object. -/
inductive Schema where
  | bool (b : Bool) : Schema
  | object (o : SchemaObject) : Schema

/-- `schemars::schema::SchemaObject`, restricted to the touched fields. -/
inductive SchemaObject where
  | mk (instance_type : Option (SingleOrVec InstanceType))
       (object : Option ObjectValidation)
       (array : Option ArrayValidation)
       (subschemas : Option SubschemaValidation) : SchemaObject

/-- `schemars::schema::ObjectValidation`, restricted to the touched fields. -/
inductive ObjectValidation where
  | mk (additional_properties : Option Schema)
       (properties : List (String × Schema))
       (required : List String) : ObjectValidation

/-- `schemars::schema::ArrayValidation`, restricted to the touched field. -/
inductive ArrayValidation where
  | mk (items : Option (SingleOrVec Schema)) : ArrayValidation

/-- `schemars::schema::SubschemaValidation`, restricted to the touched
fields (`all_of`, `any_of`, `one_of`, `not`). -/
inductive SubschemaValidation where
  | mk (all_of : Option (List Schema))
       (any_of : Option (List Schema))
       (one_of : Option (List Schema))
       (nots : Option Schema) : SubschemaValidation

end

/-- The object-typed test of step 1 of `set_no_additional_properties`
(`src/openai.rs`, lines 83-84): the instance type is present, is the
`Single` variant, and is `InstanceType::Object`. -/
def isObjectTyped : Option (SingleOrVec InstanceType) → Bool
  | some (.single .object) => true
  | _ => false

mutual

/-- Recursion of `set_no_additional_properties` through a `Schema`: the
source recurses only into `Schema::Object` and leaves `Schema::Bool`
untouched (this is the shape of steps 2, 3 and 4, and of the `definitions`
loop of `generate_schema_with_no_additional`). -/
def snaSchema : Schema → Schema
  | .bool b => .bool b
  | .object o => .object (sna o)

/-- Step 2 of `set_no_additional_properties`: recurse into each property's
schema. -/
def snaPropList : List (String × Schema) → List (String × Schema)
  | [] => []
  | (n, s) :: rest => (n, snaSchema s) :: snaPropList rest

/-- Recursion into each schema of a list (tuple items, combinator branches). -/
def snaList : List Schema → List Schema
  | [] => []
  | s :: rest => snaSchema s :: snaList rest

/-- Steps 1 and 2 of `set_no_additional_properties` on the object
validation.  Step 1 (`src/openai.rs`, lines 83-96): on an object-typed node,
materialize the validation (`get_or_insert_with(default)`), set
`additional_properties = Some(Schema::Bool(false))` and `required` to exactly
the keys of `properties`.  Step 2 (lines 98-107): recurse into every
property schema whenever a validation is present.  Step 1 changes no
property keys, so computing `required` from the keys before the recursion is
the same as the source's order of operations. -/
def snaObjV : Option (SingleOrVec InstanceType) → Option ObjectValidation →
    Option ObjectValidation
  | it, none =>
    if isObjectTyped it then
      -- step 1 on a fresh default validation: no properties, so `required`
      -- becomes the empty set and step 2 recurses into nothing
      some (.mk (some (.bool false)) [] [])
    else none
  | it, some (.mk ap props req) =>
    if isObjectTyped it then
      some (.mk (some (.bool false)) (snaPropList props) (props.map Prod.fst))
    else
      some (.mk ap (snaPropList props) req)

/-- Recursion into array items, single or tuple variant. -/
def snaItems : SingleOrVec Schema → SingleOrVec Schema
  | .single s => .single (snaSchema s)
  | .vec ss => .vec (snaList ss)

/-- Step 3 of `set_no_additional_properties` (`src/openai.rs`,
lines 109-131): recurse into the array items when present. -/
def snaArr : Option ArrayValidation → Option ArrayValidation
  | none => none
  | some (.mk none) => some (.mk none)
  | some (.mk (some iv)) => some (.mk (some (snaItems iv)))

/-- Recursion into an optional list of subschemas. -/
def snaListOpt : Option (List Schema) → Option (List Schema)
  | none => none
  | some l => some (snaList l)

/-- Recursion into an optional subschema. -/
def snaSchemaOpt : Option Schema → Option Schema
  | none => none
  | some s => some (snaSchema s)

/-- Step 4 of `set_no_additional_properties` (`src/openai.rs`,
lines 133-165): recurse into every `allOf` / `anyOf` / `oneOf` / `not`
branch. -/
def snaSubs : Option SubschemaValidation → Option SubschemaValidation
  | none => none
  | some (.mk ao bo co no) =>
    some (.mk (snaListOpt ao) (snaListOpt bo) (snaListOpt co) (snaSchemaOpt no))

/-- `set_no_additional_properties` (`src/openai.rs`, lines 80-166): the
four steps applied to the components of the schema object. -/
def sna : SchemaObject → SchemaObject
  | .mk it obj arr subs => .mk it (snaObjV it obj) (snaArr arr) (snaSubs subs)

end

/-- `schemars::schema::RootSchema`, restricted to the touched fields: the
top-level schema and the referenced definitions (`$schema` metadata elided). -/
structure RootSchema where
  schema : SchemaObject
  definitions : List (String × Schema)

/-- `generate_schema_with_no_additional` (`src/openai.rs`, lines 62-78):
apply `set_no_additional_properties` to the top-level schema and to each
schema in `definitions` (boolean definitions are skipped by the
`if let Schema::Object` there, exactly as `snaSchema` does). -/
def generate_schema_with_no_additional (r : RootSchema) : RootSchema :=
  { schema := sna r.schema
    definitions := r.definitions.map (fun p => (p.1, snaSchema p.2)) }

/-- `generate_schema` (`src/openai.rs`, lines 58-60), a direct wrapper. -/
def generate_schema (r : RootSchema) : RootSchema :=
  generate_schema_with_no_additional r

/-! ### The strictness invariant claimed for compiled schemas -/

/-- Check of step 1's postcondition at one node: if the node is
object-typed then its object validation exists, `additional_properties` is
the boolean schema `false`, and `required` is exactly the keys of the
property map. -/
def strictHere : Option (SingleOrVec InstanceType) → Option ObjectValidation → Bool
  | it, obj =>
    if isObjectTyped it then
      match obj with
      | some (.mk (some (.bool false)) props req) => decide (req = props.map Prod.fst)
      | _ => false
    else true

mutual

/-- The strictness invariant for a schema (trivially true for boolean
schemas, which carry no object nodes). -/
def schemaOk : Schema → Bool
  | .bool _ => true
  | .object o => objOk o

/-- The strictness invariant for all property schemas. -/
def propsOk : List (String × Schema) → Bool
  | [] => true
  | (_, s) :: rest => schemaOk s && propsOk rest

/-- The strictness invariant for a list of schemas. -/
def listOk : List Schema → Bool
  | [] => true
  | s :: rest => schemaOk s && listOk rest

/-- The strictness invariant inside the property schemas of an optional
object validation. -/
def objVOk : Option ObjectValidation → Bool
  | none => true
  | some (.mk _ props _) => propsOk props

/-- The strictness invariant inside array item schemas. -/
def itemsOk : SingleOrVec Schema → Bool
  | .single s => schemaOk s
  | .vec ss => listOk ss

/-- The strictness invariant inside an optional array validation. -/
def arrOk : Option ArrayValidation → Bool
  | none => true
  | some (.mk none) => true
  | some (.mk (some iv)) => itemsOk iv

/-- The strictness invariant inside an optional list of subschemas. -/
def listOptOk : Option (List Schema) → Bool
  | none => true
  | some l => listOk l

/-- The strictness invariant inside an optional subschema. -/
def schemaOptOk : Option Schema → Bool
  | none => true
  | some s => schemaOk s

/-- The strictness invariant inside every combinator branch. -/
def subsOk : Option SubschemaValidation → Bool
  | none => true
  | some (.mk ao bo co no) =>
    listOptOk ao && listOptOk bo && listOptOk co && schemaOptOk no

/-- The strictness invariant at every depth of a schema object: the node
itself satisfies `strictHere`, and the invariant holds inside every property
schema, every array item schema (single or tuple), and every
`allOf` / `anyOf` / `oneOf` / `not` branch. -/
def objOk : SchemaObject → Bool
  | .mk it obj arr subs =>
    strictHere it obj && objVOk obj && arrOk arr && subsOk subs

end

/-- The strictness invariant for a whole compiled root schema: at the
top-level schema and inside every referenced definition. -/
def rootOk (r : RootSchema) : Bool :=
  objOk r.schema && r.definitions.all (fun p => schemaOk p.2)

/-! ### Serialization of the schema tree (model of `serde_json::to_value`)

`schemars` derives `Serialize` with `skip_serializing_if` on every modelled
field: `Option` fields are skipped when `None`, and the collection fields
`properties` and `required` are skipped when empty.  Flattened validations
contribute their fields to the enclosing object. -/

/-- Serialized name of an `InstanceType`. -/
def instanceTypeToJson : InstanceType → Json
  | .null => .str "null"
  | .boolean => .str "boolean"
  | .object => .str "object"
  | .array => .str "array"
  | .number => .str "number"
  | .string => .str "string"
  | .integer => .str "integer"

/-- Serialization of `SingleOrVec<InstanceType>`. -/
def svInstanceTypeToJson : SingleOrVec InstanceType → Json
  | .single t => instanceTypeToJson t
  | .vec ts => .arr (ts.map instanceTypeToJson)

/-- Serialized `type` member (skipped when the instance type is absent). -/
def itFields : Option (SingleOrVec InstanceType) → List (String × Json)
  | none => []
  | some sv => [("type", svInstanceTypeToJson sv)]

mutual

/-- Serialization of a `Schema`. -/
def schemaToJson : Schema → Json
  | .bool b => .bool b
  | .object o => .obj (objFields o)

/-- Serialization of a property map. -/
def propsToJson : List (String × Schema) → List (String × Json)
  | [] => []
  | (n, s) :: rest => (n, schemaToJson s) :: propsToJson rest

/-- Serialization of a list of schemas. -/
def schemasToJson : List Schema → List Json
  | [] => []
  | s :: rest => schemaToJson s :: schemasToJson rest

/-- Serialized members contributed by an optional list of subschemas under
the given member name (skipped when `None`). -/
def subListFields (name : String) : Option (List Schema) → List (String × Json)
  | none => []
  | some l => [(name, .arr (schemasToJson l))]

/-- Serialized members contributed by the flattened subschema validation:
`allOf`, `anyOf`, `oneOf`, `not`, each skipped when `None`. -/
def subsFields : Option SubschemaValidation → List (String × Json)
  | none => []
  | some (.mk ao bo co no) =>
    subListFields "allOf" ao ++ subListFields "anyOf" bo ++ subListFields "oneOf" co
      ++ (match no with | none => [] | some s => [("not", schemaToJson s)])

/-- Serialized members contributed by the flattened array validation:
`items`, skipped when `None`. -/
def arrFields : Option ArrayValidation → List (String × Json)
  | none => []
  | some (.mk none) => []
  | some (.mk (some (.single s))) => [("items", schemaToJson s)]
  | some (.mk (some (.vec ss))) => [("items", .arr (schemasToJson ss))]

/-- Serialized members contributed by the flattened object validation:
`required` and `properties` are skipped when empty
(`skip_serializing_if = "Set::is_empty"` / `"Map::is_empty"`), and
`additionalProperties` is skipped when `None`. -/
def ovFields : Option ObjectValidation → List (String × Json)
  | none => []
  | some (.mk ap props req) =>
    (if req.isEmpty then [] else [("required", .arr (req.map .str))])
    ++ (if props.isEmpty then [] else [("properties", .obj (propsToJson props))])
    ++ (match ap with | none => [] | some s => [("additionalProperties", schemaToJson s)])

/-- The serialized members of a `SchemaObject`, in `schemars` field order:
`type`, then the flattened subschema fields, then the flattened array
fields, then the flattened object fields. -/
def objFields : SchemaObject → List (String × Json)
  | .mk it obj arr subs =>
    itFields it ++ subsFields subs ++ arrFields arr ++ ovFields obj

end

/-- Serialization of a `RootSchema` (`serde_json::to_value(&root_schema)` at
`src/openai.rs`, line 76): the flattened top-level schema members followed by
`definitions` (skipped when empty). -/
def rootToJson (r : RootSchema) : Json :=
  .obj (objFields r.schema
    ++ (if r.definitions.isEmpty then []
        else [("definitions", .obj (r.definitions.map (fun p => (p.1, schemaToJson p.2))))]))

/-- Member lookup in a serialized JSON document. -/
def Json.member (j : Json) (k : String) : Option Json :=
  match j with
  | .obj kvs => lookupKey k kvs
  | _ => none

/-! ### Schema name generation (`src/openai.rs`, lines 46-54) -/

/-- The character class kept by the regex `[^a-zA-Z0-9_-]+`. -/
def isAllowedChar (c : Char) : Bool :=
  (97 ≤ c.toNat && c.toNat ≤ 122)   -- a-z
  || (65 ≤ c.toNat && c.toNat ≤ 90) -- A-Z
  || (48 ≤ c.toNat && c.toNat ≤ 57) -- 0-9
  || c.toNat = 95                   -- underscore
  || c.toNat = 45                   -- hyphen

/-- `re.replace_all(full_type_name, "_")`: every maximal run of characters
outside `[a-zA-Z0-9_-]` is replaced by a single underscore.  The flag records
whether the previous character belonged to a run being replaced. -/
def sanitizeAux : Bool → List Char → List Char
  | _, [] => []
  | prevBad, c :: rest =>
    if isAllowedChar c then c :: sanitizeAux false rest
    else if prevBad then sanitizeAux true rest
    else '_' :: sanitizeAux true rest

/-- Sanitization of a full type name. -/
def sanitizeChars (l : List Char) : List Char := sanitizeAux false l

/-- `schema_name_for_type::<T>()`, as a function of `type_name::<T>()`
(the type's identifier string, an external input): sanitize, lowercase,
append the fixed `_response` suffix. -/
def schema_name_for_type (typeName : String) : String :=
  ⟨(sanitizeChars typeName.data).map Char.toLower ++ ("_response" : String).data⟩

/-! ### The client value (`src/openai.rs`, lines 16-44) -/

/-- `pub struct OpenAiClient`, with the `reqwest::Client` abstracted by a
type parameter `H`. -/
structure OpenAiClient (H : Type) where
  http_client : H
  endpoint : String
  model : String
  api_key : String
  system_role : Option String

/-- `OpenAiClient::new`: all configuration fields set, `system_role: None`. -/
def OpenAiClient.new (http_client : H) (endpoint model api_key : String) : OpenAiClient H :=
  ⟨http_client, endpoint, model, api_key, none⟩

/-- `with_system_role` (`src/openai.rs`, lines 41-44): set `system_role` to
`Some(role)`, leaving every other field unchanged. -/
def with_system_role (c : OpenAiClient H) (role : String) : OpenAiClient H :=
  { c with system_role := some role }

/-! ### Small accessors and body builders used in claim statements -/

/-- The `instance_type` component of a schema object. -/
def SchemaObject.instanceTypeF : SchemaObject → Option (SingleOrVec InstanceType)
  | .mk it _ _ _ => it

/-- The `object` component of a schema object. -/
def SchemaObject.objectV : SchemaObject → Option ObjectValidation
  | .mk _ obj _ _ => obj

/-- The `properties` component of an object validation. -/
def ObjectValidation.propertiesF : ObjectValidation → List (String × Schema)
  | .mk _ props _ => props

/-- The `required` component of an object validation. -/
def ObjectValidation.requiredF : ObjectValidation → List String
  | .mk _ _ req => req

/-- A success envelope holding exactly one choice whose message object has
the given members. -/
def oneChoiceBody (kvs : List (String × Json)) : Json :=
  .obj [("choices", .arr [.obj [("message", .obj kvs)]])]

/-- A success envelope holding exactly one choice whose message is a refusal
carrying text `t`. -/
def refusalBody (t : String) : Json :=
  oneChoiceBody [("refusal", .str t)]

/-- An error envelope carrying the upstream message `m`. -/
def errorBody (m : String) : Json :=
  .obj [("error", .obj [("message", .str m)])]

/-! ## Theorems

First the supporting lemmas (characters, digits, the parser / printer
round trip, the schema invariant), then one theorem per claim. -/

theorem toNat_ofNat_valid {n : Nat} (h : n.isValidChar) : (Char.ofNat n).toNat = n := by
  simp [Char.ofNat, h, Char.toNat, Char.ofNatAux, UInt32.toNat, BitVec.toNat_ofNatLt]

theorem char_ne_of_toNat_ne {c d : Char} (h : c.toNat ≠ d.toNat) : c ≠ d :=
  fun hcd => h (hcd ▸ rfl)

theorem digitChar_toNat {d : Nat} (h : d < 10) : (Nat.digitChar d).toNat = 48 + d := by
  interval_cases d <;> rfl

theorem isDigitC_digitChar {d : Nat} (h : d < 10) : isDigitC (Nat.digitChar d) = true := by
  interval_cases d <;> rfl

theorem isDigitC_toNat {c : Char} (h : isDigitC c = true) : 48 ≤ c.toNat ∧ c.toNat ≤ 57 := by
  simpa [isDigitC] using h

theorem hexVal_digitChar {d : Nat} (h : d < 16) : hexVal (Nat.digitChar d) = some d := by
  interval_cases d <;> rfl

theorem natDigitsRevAux_eq (f : Nat) : ∀ n, n ≤ f → natDigitsRevAux f n = Nat.digits 10 n := by
  induction f with
  | zero =>
    intro n hn
    interval_cases n
    simp [natDigitsRevAux]
  | succ f ih =>
    intro n hn
    match n with
    | 0 => simp [natDigitsRevAux]
    | n + 1 =>
      rw [natDigitsRevAux, ih ((n + 1) / 10) (by omega),
        Nat.digits_def' (by norm_num) (Nat.succ_pos n)]

theorem natDigitsRev_eq (n : Nat) : natDigitsRev n = Nat.digits 10 n :=
  natDigitsRevAux_eq n n le_rfl

theorem natDigitsRev_lt (n : Nat) : ∀ d ∈ natDigitsRev n, d < 10 := by
  rw [natDigitsRev_eq]
  exact fun d hd => Nat.digits_lt_base (by norm_num) hd

theorem natDigitsRev_ne_nil {n : Nat} (h : n ≠ 0) : natDigitsRev n ≠ [] := by
  rw [natDigitsRev_eq]
  intro hnil
  have h0 := Nat.ofDigits_digits 10 n
  rw [hnil, Nat.ofDigits_nil] at h0
  exact h h0.symm

theorem foldl_digitChars (l : List Nat) (hl : ∀ d ∈ l, d < 10) :
    ∀ a, (l.map Nat.digitChar).foldl (fun a c => 10 * a + (c.toNat - 48)) a
      = l.foldl (fun a d => 10 * a + d) a := by
  induction l with
  | nil => intro a; rfl
  | cons d l ih =>
    intro a
    have hd : d < 10 := hl d (by simp)
    simp only [List.map_cons, List.foldl_cons]
    rw [digitChar_toNat hd]
    have : 10 * a + (48 + d - 48) = 10 * a + d := by omega
    rw [this, ih (fun d hd => hl d (by simp [hd]))]

theorem foldr_eq_ofDigits (l : List Nat) :
    l.foldr (fun d a => 10 * a + d) 0 = Nat.ofDigits 10 l := by
  induction l with
  | nil => simp [Nat.ofDigits]
  | cons d l ih => simp [Nat.ofDigits_cons, ih]; omega

theorem natFromDigits_natChars (n : Nat) : natFromDigits (natChars n) = n := by
  by_cases h : n = 0
  · subst h; rfl
  · unfold natChars natFromDigits
    rw [if_neg h,
      foldl_digitChars ((natDigitsRev n).reverse)
        (fun d hd => natDigitsRev_lt n d (List.mem_reverse.mp hd)) 0,
      List.foldl_reverse, foldr_eq_ofDigits, natDigitsRev_eq, Nat.ofDigits_digits]

theorem natChars_all_digit (n : Nat) : ∀ c ∈ natChars n, isDigitC c = true := by
  unfold natChars
  split
  · intro c hc; simp at hc; subst hc; rfl
  · intro c hc
    simp only [List.mem_map, List.mem_reverse] at hc
    obtain ⟨d, hd, rfl⟩ := hc
    exact isDigitC_digitChar (natDigitsRev_lt n d hd)

theorem natChars_ne_nil (n : Nat) : natChars n ≠ [] := by
  unfold natChars
  split
  · simp
  · simp only [ne_eq, List.map_eq_nil_iff, List.reverse_eq_nil_iff]
    exact natDigitsRev_ne_nil (by assumption)

theorem takeWhile_append_of {p : α → Bool} (l₁ l₂ : List α)
    (h1 : ∀ a ∈ l₁, p a = true) (h2 : ∀ c cs, l₂ = c :: cs → p c = false) :
    (l₁ ++ l₂).takeWhile p = l₁ ∧ (l₁ ++ l₂).dropWhile p = l₂ := by
  induction l₁ with
  | nil =>
    cases l₂ with
    | nil => simp
    | cons c cs => simp [List.takeWhile, List.dropWhile, h2 c cs rfl]
  | cons a l₁ ih =>
    have ha : p a = true := h1 a (by simp)
    have := ih (fun a ha' => h1 a (by simp [ha']))
    simp [List.takeWhile, List.dropWhile, ha, this.1, this.2]

theorem parseNumber_natChars (n : Nat) (rest : List Char) (h : noDigitHead rest) :
    parseNumber (natChars n ++ rest) = some ((n : Int), rest) := by
  obtain ⟨c, cs, hc⟩ : ∃ c cs, natChars n = c :: cs := by
    cases hnc : natChars n with
    | nil => exact absurd hnc (natChars_ne_nil n)
    | cons c cs => exact ⟨c, cs, rfl⟩
  have hdig : isDigitC c = true := natChars_all_digit n c (by rw [hc]; simp)
  have hcn := isDigitC_toNat hdig
  have h45 : ('-').toNat = 45 := rfl
  have hne : c ≠ '-' := char_ne_of_toNat_ne (by omega)
  have htw := takeWhile_append_of (natChars n) rest (natChars_all_digit n) h
  have hemp : (natChars n).isEmpty = false := by rw [hc]; rfl
  rw [hc, List.cons_append]
  simp only [parseNumber, if_neg hne]
  rw [← List.cons_append, ← hc, htw.1, htw.2, hemp, natFromDigits_natChars]
  simp

theorem parseNumber_intChars (i : Int) (rest : List Char) (h : noDigitHead rest) :
    parseNumber (intChars i ++ rest) = some (i, rest) := by
  unfold intChars
  split
  · rename_i hneg
    have htw := takeWhile_append_of (natChars i.natAbs) rest (natChars_all_digit i.natAbs) h
    have hemp : (natChars i.natAbs).isEmpty = false := by
      cases hnc : natChars i.natAbs with
      | nil => exact absurd hnc (natChars_ne_nil _)
      | cons c cs => rfl
    rw [List.cons_append]
    simp only [parseNumber, if_pos rfl]
    rw [htw.1, htw.2, hemp, natFromDigits_natChars]
    simp only [Bool.false_eq_true, if_false, ite_true, Option.some.injEq, Prod.mk.injEq,
      and_true]
    omega
  · rename_i hpos
    rw [parseNumber_natChars _ _ h]
    simp only [Option.some.injEq, Prod.mk.injEq, and_true]
    omega

theorem parseStringBody_escape (s : List Char) (rest : List Char) :
    parseStringBody (escapeStr s ++ '"' :: rest) = some (s, rest) := by
  induction s with
  | nil => rw [parseStringBody.eq_def]; simp [escapeStr]
  | cons c s ih =>
    rw [escapeStr, List.append_assoc]
    unfold escapeChar
    split_ifs with h1 h2 h3 h4 h5 h6 h7 h8
    · subst h1
      rw [List.cons_append, List.cons_append, List.nil_append, parseStringBody.eq_def]
      simp [unescapeChar, ih]
    · subst h2
      rw [List.cons_append, List.cons_append, List.nil_append, parseStringBody.eq_def]
      simp [unescapeChar, ih]
    · subst h3
      rw [List.cons_append, List.cons_append, List.nil_append, parseStringBody.eq_def]
      simp [unescapeChar, ih]
    · subst h4
      rw [List.cons_append, List.cons_append, List.nil_append, parseStringBody.eq_def]
      simp [unescapeChar, ih]
    · subst h5
      rw [List.cons_append, List.cons_append, List.nil_append, parseStringBody.eq_def]
      simp [unescapeChar, ih]
    · subst h6
      rw [List.cons_append, List.cons_append, List.nil_append, parseStringBody.eq_def]
      simp [unescapeChar, ih]
    · subst h7
      rw [List.cons_append, List.cons_append, List.nil_append, parseStringBody.eq_def]
      simp [unescapeChar, ih]
    · have h16a : c.toNat / 16 < 16 := by omega
      have h16b : c.toNat % 16 < 16 := by omega
      rw [List.cons_append, List.cons_append, List.cons_append, List.cons_append,
        List.cons_append, List.cons_append, List.nil_append, parseStringBody.eq_def]
      simp [hexVal_digitChar h16a, hexVal_digitChar h16b,
        show hexVal '0' = some 0 by decide, ih]
      rw [Nat.div_add_mod, Char.ofNat_toNat]
    · rw [List.cons_append, List.nil_append, parseStringBody.eq_def]
      simp [h1, h2, ih]

theorem noDigitHead_nil : noDigitHead [] := by
  intro a as h
  cases h

theorem noDigitHead_cons {c : Char} (h : isDigitC c = false) (l : List Char) :
    noDigitHead (c :: l) := by
  intro a as hh
  injection hh with h1 h2
  rw [← h1]
  exact h

theorem intChars_cons (i : Int) :
    ∃ c cs, intChars i = c :: cs ∧ (c = '-' ∨ isDigitC c = true) := by
  unfold intChars
  split
  · exact ⟨'-', natChars i.natAbs, rfl, .inl rfl⟩
  · cases hnc : natChars i.natAbs with
    | nil => exact absurd hnc (natChars_ne_nil _)
    | cons c cs =>
      exact ⟨c, cs, rfl, .inr (natChars_all_digit _ c (by rw [hnc]; simp))⟩

theorem printJson_head (j : Json) : ∃ c cs, printJson j = c :: cs ∧ c ≠ ']' := by
  cases j with
  | null => exact ⟨'n', ['u', 'l', 'l'], by simp only [printJson], by decide⟩
  | bool b =>
    cases b
    · exact ⟨'f', ['a', 'l', 's', 'e'], by simp only [printJson], by decide⟩
    · exact ⟨'t', ['r', 'u', 'e'], by simp only [printJson], by decide⟩
  | num i =>
    obtain ⟨c, cs, hic, hc⟩ := intChars_cons i
    refine ⟨c, cs, by simp [printJson, hic], ?_⟩
    have h93 : (']').toNat = 93 := rfl
    have h45 : ('-').toNat = 45 := rfl
    rcases hc with rfl | hdig
    · exact char_ne_of_toNat_ne (by omega)
    · have := isDigitC_toNat hdig
      exact char_ne_of_toNat_ne (by omega)
  | str s => exact ⟨'"', escapeStr s.data ++ ['"'], by simp [printJson], by decide⟩
  | arr js => exact ⟨'[', printElems js, by simp [printJson], by decide⟩
  | obj kvs => exact ⟨'{', printMembers kvs, by simp [printJson], by decide⟩

theorem fuelV_pos (j : Json) : 1 ≤ fuelV j := by
  cases j <;> simp [fuelV]

theorem fuelE_pos (js : List Json) : 1 ≤ fuelE js := by
  cases js <;> simp [fuelE]

theorem fuelM_pos (ms : List (String × Json)) : 1 ≤ fuelM ms := by
  cases ms with
  | nil => simp [fuelM]
  | cons m ms => obtain ⟨k, v⟩ := m; simp [fuelM]

mutual

theorem rt_val (j : Json) (f : Nat) (rest : List Char)
    (hf : fuelV j ≤ f) (hd : noDigitHead rest) :
    parseVal f (printJson j ++ rest) = some (j, rest) := by
  cases f with
  | zero => exact absurd hf (by have := fuelV_pos j; omega)
  | succ f' =>
    cases j with
    | null =>
      rw [show printJson .null = 'n' :: ['u', 'l', 'l'] from by simp only [printJson]]
      rw [List.cons_append, parseVal.eq_def]
      simp
    | bool b =>
      cases b
      · rw [show printJson (.bool false) = 'f' :: ['a', 'l', 's', 'e'] from by simp only [printJson]]
        rw [List.cons_append, parseVal.eq_def]
        simp
      · rw [show printJson (.bool true) = 't' :: ['r', 'u', 'e'] from by simp only [printJson]]
        rw [List.cons_append, parseVal.eq_def]
        simp
    | num i =>
      obtain ⟨c, cs, hic, hc⟩ := intChars_cons i
      have hcn : c.toNat = 45 ∨ (48 ≤ c.toNat ∧ c.toNat ≤ 57) := by
        rcases hc with rfl | hdig
        · exact .inl rfl
        · exact .inr (isDigitC_toNat hdig)
      have hn : c ≠ 'n' := char_ne_of_toNat_ne (by rcases hcn with h | h <;> simp <;> omega)
      have ht : c ≠ 't' := char_ne_of_toNat_ne (by rcases hcn with h | h <;> simp <;> omega)
      have hfa : c ≠ 'f' := char_ne_of_toNat_ne (by rcases hcn with h | h <;> simp <;> omega)
      have hq : c ≠ '"' := char_ne_of_toNat_ne (by rcases hcn with h | h <;> simp <;> omega)
      have hlb : c ≠ '[' := char_ne_of_toNat_ne (by rcases hcn with h | h <;> simp <;> omega)
      have hlc : c ≠ '{' := char_ne_of_toNat_ne (by rcases hcn with h | h <;> simp <;> omega)
      rw [show printJson (.num i) = intChars i by simp [printJson], hic, List.cons_append,
        parseVal.eq_def]
      simp only [hn, ht, hfa, hq, hlb, hlc, if_false, ite_false]
      rw [← List.cons_append, ← hic, parseNumber_intChars i rest hd]
      rfl
    | str s =>
      rw [show printJson (.str s) = '"' :: (escapeStr s.data ++ ['"']) by simp [printJson]]
      rw [List.cons_append, parseVal.eq_def]
      simp only [List.append_assoc, List.singleton_append]
      simp [parseStringBody_escape]
    | arr js =>
      have hfe : fuelE js ≤ f' := by simp [fuelV] at hf; omega
      rw [show printJson (.arr js) = '[' :: printElems js by simp [printJson],
        List.cons_append, parseVal.eq_def]
      simp [rt_elems js f' rest hfe]
    | obj kvs =>
      have hfm : fuelM kvs ≤ f' := by simp [fuelV] at hf; omega
      rw [show printJson (.obj kvs) = '{' :: printMembers kvs by simp [printJson],
        List.cons_append, parseVal.eq_def]
      simp [rt_members kvs f' rest hfm]

theorem rt_elems (js : List Json) (f : Nat) (rest : List Char) (hf : fuelE js ≤ f) :
    parseElems f (printElems js ++ rest) = some (js, rest) := by
  cases f with
  | zero => exact absurd hf (by have := fuelE_pos js; omega)
  | succ f' =>
    match js with
    | [] =>
      rw [show printElems [] = [']'] by simp [printElems], List.cons_append,
        parseElems.eq_def]
      simp
    | [j] =>
      have hfv : fuelV j ≤ f' := by simp [fuelE] at hf; omega
      obtain ⟨c, cs, hc, hne⟩ := printJson_head j
      rw [show printElems [j] = printJson j ++ [']'] by simp [printElems],
        List.append_assoc, List.singleton_append, hc, List.cons_append, parseElems.eq_def]
      simp only [hne, if_false, ite_false]
      rw [← List.cons_append, ← hc,
        rt_val j f' (']' :: rest) hfv (noDigitHead_cons (by decide) rest)]
      simp
    | j :: j2 :: js' =>
      have hfv : fuelV j ≤ f' := by simp [fuelE] at hf; omega
      have hfe : fuelE (j2 :: js') ≤ f' := by simp [fuelE] at hf ⊢; omega
      obtain ⟨c, cs, hc, hne⟩ := printJson_head j
      have hinput : printElems (j :: j2 :: js') ++ rest
          = c :: (cs ++ (',' :: (printElems (j2 :: js') ++ rest))) := by
        rw [show printElems (j :: j2 :: js') = printJson j ++ ',' :: printElems (j2 :: js')
            by simp [printElems], hc]
        simp only [List.cons_append, List.append_assoc]
      have hval := rt_val j f' (',' :: (printElems (j2 :: js') ++ rest)) hfv
        (noDigitHead_cons (by decide) _)
      rw [hc, List.cons_append] at hval
      rw [hinput, parseElems.eq_def]
      simp only [hne, if_false, ite_false, hval]
      simp [rt_elems (j2 :: js') f' rest hfe]

theorem rt_members (ms : List (String × Json)) (f : Nat) (rest : List Char)
    (hf : fuelM ms ≤ f) :
    parseMembers f (printMembers ms ++ rest) = some (ms, rest) := by
  cases f with
  | zero => exact absurd hf (by have := fuelM_pos ms; omega)
  | succ f' =>
    match ms with
    | [] =>
      rw [show printMembers [] = ['}'] by simp [printMembers], List.cons_append,
        parseMembers.eq_def]
      simp
    | [(k, v)] =>
      have hfv : fuelV v ≤ f' := by simp [fuelM] at hf; omega
      have hinput : printMembers [(k, v)] ++ rest
          = '"' :: (escapeStr k.data ++ ('"' :: ':' :: (printJson v ++ ('}' :: rest)))) := by
        rw [show printMembers [(k, v)]
            = '"' :: (escapeStr k.data ++ '"' :: ':' :: (printJson v ++ ['}']))
            by simp [printMembers]]
        simp only [List.cons_append, List.append_assoc, List.singleton_append,
          List.nil_append]
      have hs := parseStringBody_escape k.data (':' :: (printJson v ++ ('}' :: rest)))
      have hval := rt_val v f' ('}' :: rest) hfv (noDigitHead_cons (by decide) rest)
      rw [hinput, parseMembers.eq_def]
      simp [hs, hval]
    | (k, v) :: m2 :: ms' =>
      have hfv : fuelV v ≤ f' := by simp [fuelM] at hf; omega
      have hfm : fuelM (m2 :: ms') ≤ f' := by
        obtain ⟨k2, v2⟩ := m2
        simp [fuelM] at hf ⊢
        omega
      have hinput : printMembers ((k, v) :: m2 :: ms') ++ rest
          = '"' :: (escapeStr k.data ++ ('"' :: ':' ::
              (printJson v ++ (',' :: (printMembers (m2 :: ms') ++ rest))))) := by
        rw [show printMembers ((k, v) :: m2 :: ms')
            = '"' :: (escapeStr k.data ++ '"' :: ':' :: (printJson v ++ ',' :: printMembers (m2 :: ms')))
            by simp [printMembers]]
        simp only [List.cons_append, List.append_assoc]
      have hs := parseStringBody_escape k.data
        (':' :: (printJson v ++ (',' :: (printMembers (m2 :: ms') ++ rest))))
      have hval := rt_val v f' (',' :: (printMembers (m2 :: ms') ++ rest)) hfv
        (noDigitHead_cons (by decide) _)
      rw [hinput, parseMembers.eq_def]
      simp [hs, hval, rt_members (m2 :: ms') f' rest hfm]

end

theorem printJson_length_pos (j : Json) : 1 ≤ (printJson j).length := by
  obtain ⟨c, cs, hc, -⟩ := printJson_head j
  rw [hc]
  simp

mutual

theorem fuelV_le (j : Json) : fuelV j ≤ (printJson j).length := by
  cases j with
  | null => simp [fuelV, printJson]
  | bool b => cases b <;> simp [fuelV, printJson]
  | num i =>
    obtain ⟨c, cs, hic, -⟩ := intChars_cons i
    simp [fuelV, printJson, hic]
  | str s => simp [fuelV, printJson]
  | arr js =>
    have := fuelE_le js
    simp only [fuelV, printJson, List.length_cons]
    omega
  | obj kvs =>
    have := fuelM_le kvs
    simp only [fuelV, printJson, List.length_cons]
    omega

theorem fuelE_le (js : List Json) : fuelE js ≤ (printElems js).length := by
  match js with
  | [] => simp [fuelE, printElems]
  | [j] =>
    have h1 := fuelV_le j
    have h2 := printJson_length_pos j
    simp only [fuelE, printElems, List.length_append, List.length_cons, List.length_nil]
    omega
  | j :: j2 :: js' =>
    have h1 := fuelV_le j
    have h2 := fuelE_le (j2 :: js')
    have h3 := printJson_length_pos j
    simp only [fuelE, printElems, List.length_append, List.length_cons] at h2 ⊢
    omega

theorem fuelM_le (ms : List (String × Json)) : fuelM ms ≤ (printMembers ms).length := by
  match ms with
  | [] => simp [fuelM, printMembers]
  | [(k, v)] =>
    have h1 := fuelV_le v
    have h2 := printJson_length_pos v
    simp only [fuelM, printMembers, List.length_append, List.length_cons, List.length_nil]
    omega
  | (k, v) :: m2 :: ms' =>
    have h1 := fuelV_le v
    have h2 := fuelM_le (m2 :: ms')
    have h3 := printJson_length_pos v
    obtain ⟨k2, v2⟩ := m2
    simp only [fuelM, printMembers, List.length_append, List.length_cons] at h2 ⊢
    omega

end

/-- Parse / print round trip: parsing the printed JSON text of any value
recovers the value exactly. -/
theorem parseJsonText_print (j : Json) : parseJsonText (jsonToString j) = some j := by
  unfold parseJsonText jsonToString
  have hfu : fuelV j ≤ 2 * (printJson j).length + 2 := by
    have := fuelV_le j
    omega
  have h := rt_val j (2 * (printJson j).length + 2) [] hfu noDigitHead_nil
  rw [List.append_nil] at h
  have hd : (String.mk (printJson j)).data = printJson j := rfl
  rw [hd, h]

theorem snaPropList_keys (l : List (String × Schema)) :
    (snaPropList l).map Prod.fst = l.map Prod.fst := by
  induction l with
  | nil => simp [snaPropList]
  | cons p rest ih =>
    obtain ⟨n, s⟩ := p
    simp [snaPropList, ih]

theorem strictHere_snaObjV (it : Option (SingleOrVec InstanceType))
    (obj : Option ObjectValidation) : strictHere it (snaObjV it obj) = true := by
  cases hobj : isObjectTyped it with
  | false =>
    rcases obj with _ | ⟨ap, props, req⟩ <;> simp [snaObjV, strictHere, hobj]
  | true =>
    rcases obj with _ | ⟨ap, props, req⟩ <;>
      simp [snaObjV, strictHere, hobj, snaPropList_keys]

mutual

theorem schemaOk_sna (s : Schema) : schemaOk (snaSchema s) = true := by
  cases s with
  | bool b => rw [snaSchema.eq_def]; rw [schemaOk.eq_def]
  | object o => rw [snaSchema.eq_def]; rw [schemaOk.eq_def]; exact objOk_sna o

theorem propsOk_sna (l : List (String × Schema)) : propsOk (snaPropList l) = true := by
  match l with
  | [] => rw [snaPropList.eq_def]; rw [propsOk.eq_def]
  | (n, s) :: rest =>
    rw [snaPropList.eq_def]
    simp only
    rw [propsOk.eq_def]
    simp only
    rw [schemaOk_sna s, propsOk_sna rest]
    rfl

theorem listOk_sna (l : List Schema) : listOk (snaList l) = true := by
  match l with
  | [] => rw [snaList.eq_def]; rw [listOk.eq_def]
  | s :: rest =>
    rw [snaList.eq_def]
    simp only
    rw [listOk.eq_def]
    simp only
    rw [schemaOk_sna s, listOk_sna rest]
    rfl

theorem itemsOk_sna (iv : SingleOrVec Schema) : itemsOk (snaItems iv) = true := by
  cases iv with
  | single s =>
    simp only [snaItems, itemsOk]
    exact schemaOk_sna s
  | vec ss =>
    simp only [snaItems, itemsOk]
    exact listOk_sna ss

theorem objVOk_sna (it : Option (SingleOrVec InstanceType))
    (obj : Option ObjectValidation) : objVOk (snaObjV it obj) = true := by
  rcases obj with _ | ⟨ap, props, req⟩
  · cases hobj : isObjectTyped it <;> simp [snaObjV, objVOk, hobj, propsOk]
  · cases hobj : isObjectTyped it <;>
      simp [snaObjV, objVOk, hobj, propsOk_sna props]

theorem listOptOk_sna (lo : Option (List Schema)) :
    listOptOk (snaListOpt lo) = true := by
  cases lo with
  | none => simp [snaListOpt, listOptOk]
  | some l =>
    simp only [snaListOpt, listOptOk]
    exact listOk_sna l

theorem schemaOptOk_sna (so : Option Schema) :
    schemaOptOk (snaSchemaOpt so) = true := by
  cases so with
  | none => simp [snaSchemaOpt, schemaOptOk]
  | some s =>
    simp only [snaSchemaOpt, schemaOptOk]
    exact schemaOk_sna s

theorem arrOk_sna (arr : Option ArrayValidation) : arrOk (snaArr arr) = true := by
  match arr with
  | none => rw [snaArr.eq_def]; rw [arrOk.eq_def]
  | some (.mk none) => rw [snaArr.eq_def]; rw [arrOk.eq_def]
  | some (.mk (some iv)) =>
    rw [snaArr.eq_def]
    simp only
    rw [arrOk.eq_def]
    simp only
    exact itemsOk_sna iv

theorem subsOk_sna (subs : Option SubschemaValidation) :
    subsOk (snaSubs subs) = true := by
  cases subs with
  | none => simp [snaSubs, subsOk]
  | some sv =>
    obtain ⟨ao, bo, co, no⟩ := sv
    simp only [snaSubs, subsOk]
    rw [listOptOk_sna ao, listOptOk_sna bo, listOptOk_sna co, schemaOptOk_sna no]
    rfl

theorem objOk_sna (o : SchemaObject) : objOk (sna o) = true := by
  obtain ⟨it, obj, arr, subs⟩ := o
  simp only [sna, objOk]
  rw [strictHere_snaObjV it obj, objVOk_sna it obj, arrOk_sna arr, subsOk_sna subs]
  rfl

end

theorem lookupKey_append (k : String) (l1 l2 : List (String × Json)) :
    lookupKey k (l1 ++ l2)
      = match lookupKey k l1 with
        | some v => some v
        | none => lookupKey k l2 := by
  induction l1 with
  | nil => simp [lookupKey]
  | cons p rest ih =>
    obtain ⟨k', v⟩ := p
    by_cases h : k' = k <;> simp [lookupKey, h, ih]

theorem required_itFields (it : Option (SingleOrVec InstanceType)) :
    lookupKey "required" (itFields it) = none := by
  cases it <;> simp [itFields, lookupKey]

theorem required_subsFields (subs : Option SubschemaValidation) :
    lookupKey "required" (subsFields subs) = none := by
  rcases subs with _ | ⟨ao, bo, co, no⟩
  · simp [subsFields, lookupKey]
  · cases ao <;> cases bo <;> cases co <;> cases no <;>
      simp [subsFields, subListFields, lookupKey_append, lookupKey]

theorem required_arrFields (arr : Option ArrayValidation) :
    lookupKey "required" (arrFields arr) = none := by
  rcases arr with _ | ⟨_ | ⟨s | ss⟩⟩ <;> simp [arrFields, lookupKey]

theorem sanitizeAux_allowed (b : Bool) (l : List Char) :
    (sanitizeAux b l).all isAllowedChar = true := by
  induction l generalizing b with
  | nil => rfl
  | cons c rest ih =>
    by_cases h : isAllowedChar c = true
    · simp [sanitizeAux, h, ih]
    · have h' : isAllowedChar c = false := by simpa using h
      have hu : isAllowedChar '_' = true := by decide
      cases b <;> simp [sanitizeAux, h', ih, hu]

theorem toLower_allowed {c : Char} (h : isAllowedChar c = true) :
    isAllowedChar c.toLower = true := by
  simp only [isAllowedChar, Bool.or_eq_true, Bool.and_eq_true, decide_eq_true_eq] at h ⊢
  have hdef : c.toLower
      = if c.toNat ≥ 65 ∧ c.toNat ≤ 90 then Char.ofNat (c.toNat + 32) else c := rfl
  rw [hdef]
  split
  · rename_i hcond
    have hval : (c.toNat + 32).isValidChar := Or.inl (by omega)
    rw [toNat_ofNat_valid hval]
    omega
  · exact h

/-! ### The claims -/

/-- Claim C1: for every target shape, the schema document produced by the
schema compiler has, at every object-typed node at every depth (inside
property schemas, array item schemas single or tuple, all-of / any-of /
one-of / not combinator branches, and every referenced definition),
`additionalProperties = false` and a `required` set equal to exactly the
keys of that node's property map.  Stated over every root schema the
compiler can receive, a superset of the schemas `schemars` derives. -/
theorem C1_compiled_schema_strict (r : RootSchema) :
    rootOk (generate_schema r) = true := by
  obtain ⟨sch, defs⟩ := r
  simp only [rootOk, generate_schema, generate_schema_with_no_additional, objOk_sna,
    Bool.true_and, List.all_eq_true]
  intro p hp
  simp only [List.mem_map] at hp
  obtain ⟨q, hq, rfl⟩ := hp
  exact schemaOk_sna q.2

/-- Claim C2 (code bug evidence): a success envelope with an empty choices
list decodes successfully as the success variant, and `call_schema` then
panics at `res.choices[0]` (an out-of-bounds index) instead of returning a
`MalformedResponse` error as the specification requires. -/
theorem C2_empty_choices_panics (T : Type) (decodeT : Json → Option T) :
    decodeOpenAIResponse decodeT (Json.obj [("choices", Json.arr [])])
        = some (.ok ⟨[]⟩) ∧
    call_schema_decode decodeT (Json.obj [("choices", Json.arr [])])
        = CallOutcome.panicked ∧
    (CallOutcome.panicked : CallOutcome T) ≠ CallOutcome.malformedResponse := by
  refine ⟨rfl, rfl, by simp⟩

/-- Claim C3 counterexample: a success envelope whose first choice's message
object contains both the answer key and the refusal key does not decode to a
`MalformedResponse` error — the answer variant is tried first and wins, so
the call returns the Answer branch. -/
theorem C3_both_keys_yield_answer :
    call_schema_decode (fun j => some j)
        (oneChoiceBody [("content", Json.obj []), ("refusal", Json.str "no")])
      = CallOutcome.ok (Json.obj []) ∧
    CallOutcome.ok (Json.obj []) ≠ (CallOutcome.malformedResponse : CallOutcome Json) := by
  refine ⟨rfl, by simp⟩

/-- Claim C3 as amended: message disambiguation is an ordered trial of the
two untagged variants.  A message with neither a decodable `content` key nor
a `refusal` key makes the whole body malformed; a message whose `content`
payload decodes yields the Answer branch (even if `refusal` is also
present); a refusal string yields the Refusal branch when `content` is
absent or its payload fails to decode. -/
theorem C3_message_disambiguation (T : Type) (decodeT : Json → Option T)
    (kvs : List (String × Json)) :
    (lookupKey "content" kvs = none → lookupKey "refusal" kvs = none →
      call_schema_decode decodeT (oneChoiceBody kvs) = CallOutcome.malformedResponse) ∧
    (∀ v t, lookupKey "content" kvs = some v → deserialize_content decodeT v = some t →
      call_schema_decode decodeT (oneChoiceBody kvs) = CallOutcome.ok t) ∧
    (∀ s, lookupKey "content" kvs = none → lookupKey "refusal" kvs = some (.str s) →
      call_schema_decode decodeT (oneChoiceBody kvs) = CallOutcome.refusal ⟨s⟩) ∧
    (∀ v s, lookupKey "content" kvs = some v → deserialize_content decodeT v = none →
      lookupKey "refusal" kvs = some (.str s) →
      call_schema_decode decodeT (oneChoiceBody kvs) = CallOutcome.refusal ⟨s⟩) := by
  refine ⟨?_, ?_, ?_, ?_⟩
  · intro h1 h2
    simp [oneChoiceBody, call_schema_decode, decodeOpenAIResponse, decodeChatGPTResponse,
      decodeOpenAIError, decodeAll, decodeChoice, decodeMessage, decodeContent,
      decodeRefusal, decodeString, lookupKey, h1, h2]
  · intro v t h1 h2
    simp [oneChoiceBody, call_schema_decode, decodeOpenAIResponse, decodeChatGPTResponse,
      decodeOpenAIError, decodeAll, decodeChoice, decodeMessage, decodeContent,
      decodeRefusal, decodeString, lookupKey, h1, h2]
  · intro s h1 h2
    simp [oneChoiceBody, call_schema_decode, decodeOpenAIResponse, decodeChatGPTResponse,
      decodeOpenAIError, decodeAll, decodeChoice, decodeMessage, decodeContent,
      decodeRefusal, decodeString, lookupKey, h1, h2]
  · intro v s h1 h2 h3
    simp [oneChoiceBody, call_schema_decode, decodeOpenAIResponse, decodeChatGPTResponse,
      decodeOpenAIError, decodeAll, decodeChoice, decodeMessage, decodeContent,
      decodeRefusal, decodeString, lookupKey, h1, h2, h3]

/-- Claim C3 amended, witnessed at concrete inputs: a message with neither
key is malformed; a pure refusal message yields the Refusal branch. -/
theorem C3_witness :
    call_schema_decode (fun j => some j) (oneChoiceBody [("x", Json.null)])
        = CallOutcome.malformedResponse ∧
    call_schema_decode (fun j => some j) (oneChoiceBody [("refusal", Json.str "r")])
        = CallOutcome.refusal ⟨"r"⟩ :=
  ⟨(C3_message_disambiguation Json (fun j => some j) [("x", Json.null)]).1 rfl rfl,
   (C3_message_disambiguation Json (fun j => some j) [("refusal", Json.str "r")]).2.2.1
     "r" rfl rfl⟩

/-- Claim C4: classification first attempts the success envelope shape; only
on its structural failure is the error envelope shape attempted; a body
matching neither surfaces as the distinct malformed-response outcome. -/
theorem C4_classification_order (T : Type) (decodeT : Json → Option T) (j : Json) :
    (∀ r, decodeChatGPTResponse decodeT j = some r →
      decodeOpenAIResponse decodeT j = some (.ok r)) ∧
    (∀ e, decodeChatGPTResponse decodeT j = none → decodeOpenAIError j = some e →
      decodeOpenAIResponse decodeT j = some (.err e)) ∧
    (decodeChatGPTResponse decodeT j = none → decodeOpenAIError j = none →
      call_schema_decode decodeT j = CallOutcome.malformedResponse) := by
  refine ⟨?_, ?_, ?_⟩
  · intro r h
    simp [decodeOpenAIResponse, h]
  · intro e h1 h2
    simp [decodeOpenAIResponse, h1, h2]
  · intro h1 h2
    simp [call_schema_decode, decodeOpenAIResponse, h1, h2]

/-- Claim C4, witnessed at a body matching neither envelope shape. -/
theorem C4_witness :
    call_schema_decode (fun j => some j) Json.null = CallOutcome.malformedResponse :=
  (C4_classification_order Json (fun j => some j) Json.null).2.2 rfl rfl

/-- Claim C5: the payload decoder accepts exactly three physical encodings —
a JSON string (parsed as JSON text, then decoded), a native object (decoded
directly), a native sequence (decoded directly) — and any other physical
encoding (number, boolean, null) is a decode error. -/
theorem C5_payload_encodings (T : Type) (decodeT : Json → Option T) :
    (∀ s, deserialize_content decodeT (.str s) = (parseJsonText s).bind decodeT) ∧
    (∀ kvs, deserialize_content decodeT (.obj kvs) = decodeT (.obj kvs)) ∧
    (∀ xs, deserialize_content decodeT (.arr xs) = decodeT (.arr xs)) ∧
    (∀ i, deserialize_content decodeT (.num i) = none) ∧
    (∀ b, deserialize_content decodeT (.bool b) = none) ∧
    deserialize_content decodeT .null = none :=
  ⟨fun _ => rfl, fun _ => rfl, fun _ => rfl, fun _ => rfl, fun _ => rfl, rfl⟩

/-- Claim C6: for a valid instance of the target shape (an instance `v`
whose serde encoding `p` — an object, or an array for array-like shapes —
decodes back to `v`), decoding the native form and decoding the
JSON-encoded-string form both yield exactly `v`, so all accepted physical
forms agree with each other and with the original instance. -/
theorem C6_payload_roundtrip (T : Type) (decodeT : Json → Option T) (p : Json) (v : T)
    (hdec : decodeT p = some v) (hshape : isObjOrArr p = true) :
    deserialize_content decodeT p = some v ∧
    deserialize_content decodeT (.str (jsonToString p)) = some v := by
  constructor
  · cases p <;> simp [isObjOrArr] at hshape <;> simpa [deserialize_content] using hdec
  · show (parseJsonText (jsonToString p)).bind decodeT = some v
    rw [parseJsonText_print p]
    simpa using hdec

/-- Claim C6, witnessed at the specification's example shape instance. -/
theorem C6_witness :
    deserialize_content (fun j => some j) (Json.obj [("explanation", Json.str "ok")])
        = some (Json.obj [("explanation", Json.str "ok")]) ∧
    deserialize_content (fun j => some j)
        (.str (jsonToString (Json.obj [("explanation", Json.str "ok")])))
        = some (Json.obj [("explanation", Json.str "ok")]) :=
  C6_payload_roundtrip Json (fun j => some j) _ _ rfl rfl

/-- Claim C7 counterexample: compiling a property-less object-typed node
produces a schema document with no `required` key at all (the serializer
skips empty sets), not an explicit `required = []`; the node is present, as
its `additionalProperties: false` member shows. -/
theorem C7_required_key_absent :
    Json.member (rootToJson (generate_schema
        ⟨SchemaObject.mk (some (.single .object)) none none none, []⟩)) "required"
      = none ∧
    Json.member (rootToJson (generate_schema
        ⟨SchemaObject.mk (some (.single .object)) none none none, []⟩)) "additionalProperties"
      = some (Json.bool false) := by
  constructor <;>
    simp [Json.member, rootToJson, generate_schema, generate_schema_with_no_additional,
      sna, snaObjV, snaArr, snaSubs, isObjectTyped, objFields, itFields, subsFields,
      arrFields, ovFields, svInstanceTypeToJson, instanceTypeToJson, lookupKey,
      schemaToJson, lookupKey_append]

/-- Claim C7 as amended: for an object-typed node with no declared
properties the compiler sets the in-memory `required` set to the empty set,
but the serialized schema document omits the `required` key entirely,
because the serializer skips empty collections. -/
theorem C7_empty_required_in_memory_absent_in_document (o : SchemaObject)
    (hit : o.instanceTypeF = some (.single .object))
    (hprops : (o.objectV.map ObjectValidation.propertiesF).getD [] = []) :
    (sna o).objectV.map ObjectValidation.requiredF = some [] ∧
    lookupKey "required" (objFields (sna o)) = none := by
  obtain ⟨it, obj, arr, subs⟩ := o
  simp only [SchemaObject.instanceTypeF] at hit
  subst hit
  have hov : snaObjV (some (.single .object)) obj = some (.mk (some (.bool false)) [] []) := by
    rcases obj with _ | ⟨ap, props, req⟩
    · simp [snaObjV, isObjectTyped]
    · simp only [SchemaObject.objectV, Option.map_some, Option.getD_some,
        ObjectValidation.propertiesF] at hprops
      subst hprops
      simp [snaObjV, isObjectTyped, snaPropList]
  constructor
  · simp [sna, SchemaObject.objectV, hov, ObjectValidation.requiredF]
  · simp only [sna, objFields]
    simp [lookupKey_append, required_itFields, required_subsFields, required_arrFields,
      hov, ovFields, lookupKey]

/-- Claim C7 amended, witnessed at a concrete property-less object node. -/
theorem C7_witness :
    (sna (SchemaObject.mk (some (.single .object)) none none none)).objectV.map
          ObjectValidation.requiredF = some [] ∧
    lookupKey "required"
        (objFields (sna (SchemaObject.mk (some (.single .object)) none none none)))
      = none :=
  C7_empty_required_in_memory_absent_in_document _ rfl rfl

/-- Claim C8: the generated schema name contains only letters, digits,
underscore and hyphen, ends with the fixed `_response` suffix, and is a
deterministic function of the shape's type identifier. -/
theorem C8_schema_name (s : String) :
    (schema_name_for_type s).data.all isAllowedChar = true ∧
    ("_response" : String).data <:+ (schema_name_for_type s).data ∧
    (∀ s', s = s' → schema_name_for_type s = schema_name_for_type s') := by
  refine ⟨?_, List.suffix_append _ _, fun s' h => by rw [h]⟩
  show ((sanitizeChars s.data).map Char.toLower ++ ("_response" : String).data).all
      isAllowedChar = true
  rw [List.all_append]
  have h1 : ((sanitizeChars s.data).map Char.toLower).all isAllowedChar = true := by
    rw [List.all_map]
    rw [List.all_eq_true]
    intro c hc
    exact toLower_allowed (List.all_eq_true.mp (sanitizeAux_allowed false s.data) c hc)
  have h2 : (("_response" : String).data).all isAllowedChar = true := by decide
  rw [h1, h2]
  rfl

/-- Claim C8, witnessed at a Rust-style fully qualified type name. -/
theorem C8_witness :
    (schema_name_for_type "alloc::vec::Vec<my_crate::Review>").data.all isAllowedChar
        = true ∧
    ("_response" : String).data <:+
        (schema_name_for_type "alloc::vec::Vec<my_crate::Review>").data ∧
    schema_name_for_type "alloc::vec::Vec<my_crate::Review>"
        = schema_name_for_type "alloc::vec::Vec<my_crate::Review>" :=
  ⟨(C8_schema_name _).1, (C8_schema_name _).2.1,
   (C8_schema_name "alloc::vec::Vec<my_crate::Review>").2.2 _ rfl⟩

/-- Claim C9: the domain errors carry the upstream text verbatim — a message
`{"refusal": t}` yields the Refusal outcome holding exactly `t`, and an
error envelope with message `m` yields the upstream-error outcome holding
exactly `m`. -/
theorem C9_verbatim_error_text (T : Type) (decodeT : Json → Option T) (t m : String) :
    call_schema_decode decodeT (refusalBody t) = CallOutcome.refusal ⟨t⟩ ∧
    call_schema_decode decodeT (errorBody m) = CallOutcome.apiError ⟨⟨m⟩⟩ :=
  ⟨rfl, rfl⟩

/-- Claim C10: `with_system_role` sets `system_role` to `Some(role)` and
leaves `http_client`, `endpoint`, `model` and `api_key` unchanged; a second
application overwrites the first. -/
theorem C10_with_system_role (H : Type) (c : OpenAiClient H) (s s' : String) :
    (with_system_role c s).system_role = some s ∧
    (with_system_role c s).http_client = c.http_client ∧
    (with_system_role c s).endpoint = c.endpoint ∧
    (with_system_role c s).model = c.model ∧
    (with_system_role c s).api_key = c.api_key ∧
    (with_system_role (with_system_role c s) s').system_role = some s' :=
  ⟨rfl, rfl, rfl, rfl, rfl, rfl⟩

end OAI
